import Mathlib

/-!
# Verification of the n8n-mcp-server multi-instance dispatch layer

Shallow embedding of the TypeScript sources:
- `src/config.ts`  : instance loading, lookup, validation
- `src/n8n-client.ts` : the `N8NClient` REST wrapper (`request`, workflow and
  execution operations)
- `src/tools.ts`   : the tool schemas and the `N8NToolHandlers` class
- `src/index.ts`   : the `CallToolRequestSchema` dispatch boundary

Modelling conventions:
- JavaScript exceptions are modelled as `Except String`; the `try/catch` at the
  dispatch boundary is the single place an `Except.error` is converted into the
  error envelope.
- JSON values are modelled by the inductive `JVal`.  JavaScript `undefined` and
  `null` are conflated into `JVal.null` (both make a subsequent property access
  throw, which is all the verified properties depend on).
- Backend HTTP traffic is modelled by a pure oracle `Backend` mapping each
  issued `HttpRequest` to an `HttpResponse`; handler computations additionally
  record the list of requests they issue (the type `BackendM`).
- JavaScript string truthiness (empty string is falsy) and number truthiness
  (zero is falsy) are modelled explicitly at each use site, following the
  source expression being translated.
- The TypeScript field `instance` of the tool argument objects is renamed
  `instanceName` because `instance` is a Lean keyword.
-/

/-- JSON values (JavaScript `undefined` and `null` are both `JVal.null`). -/
inductive JVal where
  | null : JVal
  | b : Bool → JVal
  | n : Int → JVal
  | s : String → JVal
  | arr : List JVal → JVal
  | obj : List (String × JVal) → JVal
deriving Repr

/-- Character-level lowercase map, modelling `String.prototype.toLowerCase`. -/
def lowerChars (s : String) : List Char :=
  s.toList.map Char.toLower

/-- String-level lowercase, modelling `String.prototype.toLowerCase`. -/
def lowerStr (s : String) : String :=
  String.mk (lowerChars s)

/-- Whether `needle` is a prefix of `hay` (character lists). -/
def isPrefixChars : List Char → List Char → Bool
  | [], _ => true
  | _ :: _, [] => false
  | a :: as, b :: bs => a == b && isPrefixChars as bs

/-- Whether `needle` occurs as a contiguous substring of `hay`, modelling
`String.prototype.includes`. -/
def containsChars (hay needle : List Char) : Bool :=
  isPrefixChars needle hay ||
    match hay with
    | [] => false
    | _ :: t => containsChars t needle

/-- `config.ts` instance record (`N8NInstance` in `types.ts`). -/
structure N8NInstance where
  name : String
  url : String
  apiKey : String
deriving Repr, DecidableEq

/-- One entry of the parsed `N8N_INSTANCES` JSON array.  The source reads the
`name`/`url`/`apiKey` properties of each entry and keeps the entry only when
all three are truthy; entries are modelled with optional string fields
(`none` = property absent). -/
structure RawInst where
  name : Option String
  url : Option String
  apiKey : Option String
deriving Repr, DecidableEq

/-- Outcome of `JSON.parse(process.env.N8N_INSTANCES)` followed by the
`Array.isArray` test in `loadInstances`. -/
inductive JsonOutcome where
  | parseError : JsonOutcome
  | notArray : JsonOutcome
  | arr : List RawInst → JsonOutcome
deriving Repr

/-- The environment variables consulted by `loadInstances`.
`instancesJson = none` models `N8N_INSTANCES` unset or empty (falsy).
The numbered maps model `N8N_INSTANCE_<i>_NAME` / `_URL` / `_API_KEY`. -/
structure Env where
  instancesJson : Option JsonOutcome
  numberedName : Nat → Option String
  numberedUrl : Nat → Option String
  numberedApiKey : Nat → Option String
  n8nUrl : Option String
  n8nApiKey : Option String
  n8nInstanceName : Option String

/-- JavaScript truthiness of an optional environment-variable string:
set and non-empty. -/
def envTruthy : Option String → Option String
  | some st => if st = "" then none else some st
  | none => none

/-- `url.replace(/\/$/, '')` on reversed character lists: drop one leading
slash of the reversed string (one trailing slash of the original). -/
def stripLastSlashRev : List Char → List Char
  | [] => []
  | c :: t => if c = '/' then t else c :: t

/-- `url.replace(/\/$/, '')`: remove one trailing slash when present. -/
def stripTrailingSlash (s : String) : String :=
  String.mk (stripLastSlashRev s.toList.reverse).reverse

/-- Whether a reversed character list starts with slash (the original string
ends with slash). -/
def revStartsSlash : List Char → Bool
  | [] => false
  | c :: _ => c == '/'

/-- Whether a string ends with the character slash. -/
def endsWithSlash (s : String) : Bool :=
  revStartsSlash s.toList.reverse

/-- Whether a reversed character list starts with two slashes. -/
def revStartsTwoSlash : List Char → Bool
  | c1 :: c2 :: _ => c1 == '/' && c2 == '/'
  | _ => false

/-- Whether a string ends with two slash characters. -/
def endsWithTwoSlashes (s : String) : Bool :=
  revStartsTwoSlash s.toList.reverse

/-- The instances contributed by the `N8N_INSTANCES` JSON source
(`config.ts` lines 21-40): each array entry with truthy `name`, `url` and
`apiKey` is kept, with one trailing slash stripped from the URL. -/
def jsonInstances (e : Env) : List N8NInstance :=
  match e.instancesJson with
  | some (JsonOutcome.arr entries) =>
      entries.filterMap (fun inst =>
        match envTruthy inst.name, envTruthy inst.url, envTruthy inst.apiKey with
        | some nm, some u, some k => some ⟨nm, stripTrailingSlash u, k⟩
        | _, _, _ => none)
  | _ => []

/-- The instances contributed by the numbered `N8N_INSTANCE_<i>_*` variables
for `i = 1..20` (`config.ts` lines 42-55). -/
def numberedInstances (e : Env) : List N8NInstance :=
  ((List.range 20).map (fun i => i + 1)).filterMap (fun i =>
    match envTruthy (e.numberedName i), envTruthy (e.numberedUrl i),
        envTruthy (e.numberedApiKey i) with
    | some nm, some u, some k => some ⟨nm, stripTrailingSlash u, k⟩
    | _, _, _ => none)

/-- The legacy `N8N_URL` / `N8N_API_KEY` fallback instance
(`config.ts` lines 57-70); the name defaults to `default` when
`N8N_INSTANCE_NAME` is falsy. -/
def fallbackInstances (e : Env) : List N8NInstance :=
  match envTruthy e.n8nUrl, envTruthy e.n8nApiKey with
  | some u, some k =>
      [⟨(match envTruthy e.n8nInstanceName with
          | some nm => nm
          | none => "default"), stripTrailingSlash u, k⟩]
  | _, _ => []

/-- `loadInstances` (`config.ts` lines 18-73): the JSON source and the
numbered source are both consulted and concatenated; the legacy fallback is
consulted only when the first two together produced zero instances. -/
def loadInstances (e : Env) : List N8NInstance :=
  let instances := jsonInstances e ++ numberedInstances e
  if instances.isEmpty then fallbackInstances e else instances

/-- The configured URL values an environment offers to `loadInstances`: the
truthy `url` property of each `N8N_INSTANCES` entry, the truthy numbered
`N8N_INSTANCE_<i>_URL` values for `i = 1..20`, and the truthy legacy
`N8N_URL`.  Stated from the environment alone (independently of
`loadInstances`), it ties each stored instance URL back to the configured
URL it was derived from. -/
def envConfiguredUrls (e : Env) : List String :=
  (match e.instancesJson with
   | some (JsonOutcome.arr entries) =>
       entries.filterMap (fun r => envTruthy r.url)
   | _ => []) ++
  ((List.range 20).map (fun i => i + 1)).filterMap
    (fun i => envTruthy (e.numberedUrl i)) ++
  (match envTruthy e.n8nUrl with
   | some u => [u]
   | none => [])

/-- `getInstanceByName` (`config.ts` lines 75-79): first instance whose
lowercased name equals the lowercased query. -/
def getInstanceByName (instances : List N8NInstance) (name : String) :
    Option N8NInstance :=
  instances.find? (fun inst => lowerStr inst.name == lowerStr name)

/-- Independent rendering of the specification wording for `resolve`:
the first instance in registration order whose name equals the query up to
letter case. -/
def firstCaseInsensitiveMatch : List N8NInstance → String → Option N8NInstance
  | [], _ => none
  | i :: t, q =>
      if lowerStr i.name = lowerStr q then some i
      else firstCaseInsensitiveMatch t q

/-- Property lookup on a JSON object: `some v` when the key is present. -/
def getField : JVal → String → Option JVal
  | JVal.obj fs, k => (fs.find? (fun p => p.1 == k)).map (fun p => p.2)
  | _, _ => none

/-- JavaScript truthiness of a JSON value. -/
def jvTruthy : JVal → Bool
  | JVal.null => false
  | JVal.b x => x
  | JVal.n x => x != 0
  | JVal.s x => x != ""
  | JVal.arr _ => true
  | JVal.obj _ => true

/-- JavaScript template-literal coercion `${v}` of a JSON value. -/
def jsToString : JVal → String
  | JVal.null => "null"
  | JVal.b true => "true"
  | JVal.b false => "false"
  | JVal.n x => toString x
  | JVal.s x => x
  | JVal.arr _ => ""
  | JVal.obj _ => "[object Object]"

/-- Escape one character for JSON string serialization (quote, backslash). -/
def jescapeChar (c : Char) : String :=
  if c.toNat = 34 then "\\\""
  else if c.toNat = 92 then "\\\\"
  else String.mk [c]

/-- Escape a string for JSON serialization. -/
def jescape (s : String) : String :=
  String.join (s.toList.map jescapeChar)

mutual
/-- `JSON.stringify`, modelled compactly (the source pretty-prints with a
two-space indent; only the serialized structure matters to the properties
proved here, never the whitespace). -/
def stringifyJson : JVal → String
  | JVal.null => "null"
  | JVal.b true => "true"
  | JVal.b false => "false"
  | JVal.n x => toString x
  | JVal.s x => "\"" ++ jescape x ++ "\""
  | JVal.arr xs => "[" ++ stringifyArr xs ++ "]"
  | JVal.obj fs => "\x7b" ++ stringifyObj fs ++ "\x7d"

/-- Serialize the elements of a JSON array, comma separated. -/
def stringifyArr : List JVal → String
  | [] => ""
  | [x] => stringifyJson x
  | x :: xs => stringifyJson x ++ "," ++ stringifyArr xs

/-- Serialize the fields of a JSON object, comma separated. -/
def stringifyObj : List (String × JVal) → String
  | [] => ""
  | [(k, v)] => "\"" ++ jescape k ++ "\":" ++ stringifyJson v
  | (k, v) :: fs => "\"" ++ jescape k ++ "\":" ++ stringifyJson v ++ "," ++ stringifyObj fs
end

/-- An HTTP request issued by `N8NClient.request`: method, full URL and
optional JSON body (headers carry only constants and the API key and are not
modelled). -/
structure HttpRequest where
  method : String
  url : String
  body : Option JVal
deriving Repr

/-- An HTTP response as observed through `fetch`: status, status text and the
result of `response.json()` (`none` when the body is not parseable JSON). -/
structure HttpResponse where
  status : Nat
  statusText : String
  body : Option JVal

/-- The backend oracle: what response each request receives. -/
def Backend : Type := HttpRequest → HttpResponse

/-- The generic fallback error text built in `N8NClient.request`. -/
def httpGenericText (status : Nat) (statusText : String) : String :=
  "HTTP " ++ toString status ++ ": " ++ statusText

/-- `N8NClient.request` response processing (`n8n-client.ts` lines 52-72):
`response.ok` is status 200-299; on a non-ok status the error body is probed
for a truthy `message` property, the resulting text is prefixed with
`N8N API Error: ` and thrown; status 204 yields an empty result with no body
parsing; otherwise the parsed JSON body is returned (an unparseable success
body rethrows the JSON parse failure). -/
def n8nRequest (resp : HttpResponse) : Except String (Option JVal) :=
  if 200 ≤ resp.status ∧ resp.status ≤ 299 then
    if resp.status = 204 then Except.ok none
    else
      match resp.body with
      | some v => Except.ok (some v)
      | none => Except.error "SyntaxError: unexpected token in JSON body"
  else
    let base := httpGenericText resp.status resp.statusText
    let msg :=
      match resp.body with
      | some errorBody =>
          match getField errorBody "message" with
          | some m => if jvTruthy m then jsToString m else base
          | none => base
      | none => base
    Except.error ("N8N API Error: " ++ msg)

/-- Independent rendering of the amended error-text description: the
backend-supplied `message` value when the error body parses and carries a
truthy `message` property, otherwise the generic status line. -/
def backendErrorText (resp : HttpResponse) : String :=
  match resp.body with
  | some errorBody =>
      match getField errorBody "message" with
      | some m => if jvTruthy m then jsToString m else httpGenericText resp.status resp.statusText
      | none => httpGenericText resp.status resp.statusText
  | none => httpGenericText resp.status resp.statusText

/-- `baseUrl` getter of `N8NClient`. -/
def clientBaseUrl (inst : N8NInstance) : String :=
  inst.url ++ "/api/v1"

/-- Options object accepted by `N8NClient.listWorkflows`. -/
structure ListWorkflowsOptions where
  active : Option Bool
  tags : Option String
  limit : Option Int
  cursor : Option String
deriving Repr, DecidableEq

/-- `String(b)` for a boolean. -/
def jsBoolString (b : Bool) : String :=
  if b then "true" else "false"

/-- The query parameters accumulated by `N8NClient.listWorkflows`
(`n8n-client.ts` lines 86-99): `active` whenever defined, `tags` / `limit` /
`cursor` only when truthy (non-empty string, non-zero number). -/
def listWorkflowsParams (o : ListWorkflowsOptions) : List (String × String) :=
  (match o.active with
   | some b => [("active", jsBoolString b)]
   | none => []) ++
  (match o.tags with
   | some t => if t = "" then [] else [("tags", t)]
   | none => []) ++
  (match o.limit with
   | some l => if l = 0 then [] else [("limit", toString l)]
   | none => []) ++
  (match o.cursor with
   | some c => if c = "" then [] else [("cursor", c)]
   | none => [])

/-- Options object accepted by `N8NClient.listExecutions`. -/
structure ListExecutionsOptions where
  workflowId : Option String
  status : Option String
  limit : Option Int
  cursor : Option String
deriving Repr, DecidableEq

/-- The query parameters accumulated by `N8NClient.listExecutions`
(`n8n-client.ts` lines 175-188): each parameter only when truthy. -/
def listExecutionsParams (o : ListExecutionsOptions) : List (String × String) :=
  (match o.workflowId with
   | some w => if w = "" then [] else [("workflowId", w)]
   | none => []) ++
  (match o.status with
   | some st => if st = "" then [] else [("status", st)]
   | none => []) ++
  (match o.limit with
   | some l => if l = 0 then [] else [("limit", toString l)]
   | none => []) ++
  (match o.cursor with
   | some c => if c = "" then [] else [("cursor", c)]
   | none => [])

/-- Render accumulated query parameters (`URLSearchParams.toString`;
percent-encoding is not modelled). -/
def renderQuery : List (String × String) → String
  | [] => ""
  | [(k, v)] => k ++ "=" ++ v
  | (k, v) :: ps => k ++ "=" ++ v ++ "&" ++ renderQuery ps

/-- Append an optional query string to a path, as in
`path = base + (queryString ? "?" + queryString : "")`. -/
def withQuery (base : String) (params : List (String × String)) : String :=
  let qs := renderQuery params
  if qs = "" then base else base ++ "?" ++ qs

/-- `N8NClient.listWorkflows` request. -/
def listWorkflowsReq (inst : N8NInstance) (o : ListWorkflowsOptions) : HttpRequest :=
  ⟨"GET", clientBaseUrl inst ++ withQuery "/workflows" (listWorkflowsParams o), none⟩

/-- `N8NClient.getWorkflow` request. -/
def getWorkflowReq (inst : N8NInstance) (id : String) : HttpRequest :=
  ⟨"GET", clientBaseUrl inst ++ "/workflows/" ++ id, none⟩

/-- `N8NClient.createWorkflow` request. -/
def createWorkflowReq (inst : N8NInstance) (body : JVal) : HttpRequest :=
  ⟨"POST", clientBaseUrl inst ++ "/workflows", some body⟩

/-- `N8NClient.updateWorkflow` request (the generic update operation,
`PUT /workflows/<id>`). -/
def updateWorkflowReq (inst : N8NInstance) (id : String) (body : JVal) : HttpRequest :=
  ⟨"PUT", clientBaseUrl inst ++ "/workflows/" ++ id, some body⟩

/-- `N8NClient.deleteWorkflow` request. -/
def deleteWorkflowReq (inst : N8NInstance) (id : String) : HttpRequest :=
  ⟨"DELETE", clientBaseUrl inst ++ "/workflows/" ++ id, none⟩

/-- `N8NClient.activateWorkflow` request (dedicated action sub-path). -/
def activateWorkflowReq (inst : N8NInstance) (id : String) : HttpRequest :=
  ⟨"POST", clientBaseUrl inst ++ "/workflows/" ++ id ++ "/activate", none⟩

/-- `N8NClient.deactivateWorkflow` request (dedicated action sub-path). -/
def deactivateWorkflowReq (inst : N8NInstance) (id : String) : HttpRequest :=
  ⟨"POST", clientBaseUrl inst ++ "/workflows/" ++ id ++ "/deactivate", none⟩

/-- `N8NClient.executeWorkflow` request. -/
def executeWorkflowReq (inst : N8NInstance) (id : String) : HttpRequest :=
  ⟨"POST", clientBaseUrl inst ++ "/workflows/" ++ id ++ "/run", none⟩

/-- `N8NClient.listExecutions` request. -/
def listExecutionsReq (inst : N8NInstance) (o : ListExecutionsOptions) : HttpRequest :=
  ⟨"GET", clientBaseUrl inst ++ withQuery "/executions" (listExecutionsParams o), none⟩

/-- `N8NClient.getExecution` request. -/
def getExecutionReq (inst : N8NInstance) (id : String) : HttpRequest :=
  ⟨"GET", clientBaseUrl inst ++ "/executions/" ++ id, none⟩

/-- A handler computation: given the backend oracle, the list of HTTP requests
issued (in order) and the outcome (`Except.error` models a thrown exception
propagating out of the handler). -/
def BackendM (α : Type) : Type :=
  Backend → List HttpRequest × Except String α

/-- Lift a pure exception-or-value into `BackendM` (no request issued). -/
def liftB {α : Type} (e : Except String α) : BackendM α :=
  fun _ => ([], e)

/-- Return a value (no request issued). -/
def pureB {α : Type} (a : α) : BackendM α :=
  fun _ => ([], Except.ok a)

/-- Sequence two handler steps; a thrown exception short-circuits, request
logs concatenate. -/
def bindB {α β : Type} (x : BackendM α) (f : α → BackendM β) : BackendM β :=
  fun be =>
    match x be with
    | (tr, Except.ok a) => (tr ++ (f a be).1, (f a be).2)
    | (tr, Except.error e) => (tr, Except.error e)

/-- Issue one HTTP request through `N8NClient.request` and process the
response. -/
def callB (req : HttpRequest) : BackendM (Option JVal) :=
  fun be => ([req], n8nRequest (be req))

/-- `instances.map(...).join(', ')`: comma-space separated join. -/
def joinComma : List String → String
  | [] => ""
  | [x] => x
  | x :: xs => x ++ ", " ++ joinComma xs

/-- `N8NToolHandlers.getClient` (`tools.ts` lines 299-308) as an
exception-producing lookup; the constructed `N8NClient` is identified with
its bound instance record. -/
def getClientE (instances : List N8NInstance) (instanceName : String) :
    Except String N8NInstance :=
  match getInstanceByName instances instanceName with
  | some inst => Except.ok inst
  | none =>
      let available := joinComma (instances.map (fun i => i.name))
      Except.error ("Instance \"" ++ instanceName ++ "\" not found. Available instances: "
        ++ (if available = "" then "none" else available))

/-- `getClient` lifted into a handler step. -/
def getClientB (instances : List N8NInstance) (instanceName : String) :
    BackendM N8NInstance :=
  liftB (getClientE instances instanceName)

/-- `result.id` style property access: throws on `null`/`undefined`
receivers, yields `undefined` (modelled `JVal.null`) for a missing property
or a primitive receiver. -/
def jsGet (v : JVal) (k : String) : Except String JVal :=
  match v with
  | JVal.null => Except.error ("TypeError: Cannot read properties of null (reading " ++ k ++ ")")
  | JVal.obj fs => Except.ok (((fs.find? (fun p => p.1 == k)).map (fun p => p.2)).getD JVal.null)
  | _ => Except.ok JVal.null

/-- Dereferencing an `await client.request(...)` result that the handler
assumes present; an empty (204) result makes the following property access
throw. -/
def requireVal (b : Option JVal) : Except String JVal :=
  match b with
  | some v => Except.ok v
  | none => Except.error "TypeError: Cannot read properties of undefined"

/-- `result.data.map(...)` access: requires the response body to carry an
array-valued `data` property. -/
def asDataArray (v : JVal) : Except String (List JVal) :=
  match getField v "data" with
  | some (JVal.arr xs) => Except.ok xs
  | _ => Except.error "TypeError: result.data.map is not a function"

/-- `w.tags?.map((t) => t.name) || []`: missing tags yield the empty list,
an array maps each tag to its `name` property, any other value throws. -/
def jsTagNames (w : JVal) : Except String JVal := do
  let tv ← jsGet w "tags"
  match tv with
  | JVal.null => pure (JVal.arr [])
  | JVal.arr xs => do
      let names ← xs.mapM (fun t => jsGet t "name")
      pure (JVal.arr names)
  | _ => Except.error "TypeError: w.tags.map is not a function"

/-- Parsed `ListWorkflowsSchema` arguments (`limit` carries its zod default). -/
structure ListWorkflowsArgs where
  instanceName : String
  active : Option Bool
  tags : Option String
  limit : Int
deriving Repr, DecidableEq

/-- Parsed `SearchWorkflowsSchema` arguments. -/
structure SearchWorkflowsArgs where
  instanceName : String
  query : String
  active : Option Bool
deriving Repr, DecidableEq

/-- Parsed `GetWorkflowSchema` arguments. -/
structure GetWorkflowArgs where
  instanceName : String
  workflowId : String
deriving Repr, DecidableEq

/-- Parsed `CreateWorkflowSchema` arguments (`active` carries its zod
default `false`). -/
structure CreateWorkflowArgs where
  instanceName : String
  name : String
  nodes : Option (List JVal)
  connections : Option (List (String × JVal))
  settings : Option (List (String × JVal))
  active : Bool
deriving Repr

/-- Parsed `UpdateWorkflowSchema` arguments: every updatable field optional. -/
structure UpdateWorkflowArgs where
  instanceName : String
  workflowId : String
  name : Option String
  nodes : Option (List JVal)
  connections : Option (List (String × JVal))
  settings : Option (List (String × JVal))
  active : Option Bool
deriving Repr

/-- Parsed `DeleteWorkflowSchema` arguments. -/
structure DeleteWorkflowArgs where
  instanceName : String
  workflowId : String
deriving Repr, DecidableEq

/-- Parsed `ToggleWorkflowSchema` arguments (`active` required). -/
structure ToggleWorkflowArgs where
  instanceName : String
  workflowId : String
  active : Bool
deriving Repr, DecidableEq

/-- Parsed `ExecuteWorkflowSchema` arguments. -/
structure ExecuteWorkflowArgs where
  instanceName : String
  workflowId : String
deriving Repr, DecidableEq

/-- Parsed `ListExecutionsSchema` arguments (`limit` carries its zod
default 20). -/
structure ListExecutionsArgs where
  instanceName : String
  workflowId : Option String
  status : Option String
  limit : Int
deriving Repr, DecidableEq

/-- Parsed `GetExecutionSchema` arguments. -/
structure GetExecutionArgs where
  instanceName : String
  executionId : String
deriving Repr, DecidableEq

/-- zod `z.object(...)`: the argument value must be an object (a missing MCP
`arguments` field, modelled `JVal.null`, fails here). The exact zod message
text is abbreviated; only the fact that parsing throws is relied upon. -/
def zObj (v : JVal) : Except String (List (String × JVal)) :=
  match v with
  | JVal.obj fs => Except.ok fs
  | _ => Except.error "ZodError: expected object"

/-- zod required `z.string()` field. -/
def zReqString (v : JVal) (k : String) : Except String String :=
  match getField v k with
  | some (JVal.s st) => Except.ok st
  | some _ => Except.error ("ZodError: expected string at " ++ k)
  | none => Except.error ("ZodError: required at " ++ k)

/-- zod required `z.boolean()` field. -/
def zReqBool (v : JVal) (k : String) : Except String Bool :=
  match getField v k with
  | some (JVal.b x) => Except.ok x
  | some _ => Except.error ("ZodError: expected boolean at " ++ k)
  | none => Except.error ("ZodError: required at " ++ k)

/-- zod `z.string().optional()` field (an explicit `null` is rejected). -/
def zOptString (v : JVal) (k : String) : Except String (Option String) :=
  match getField v k with
  | some (JVal.s st) => Except.ok (some st)
  | some _ => Except.error ("ZodError: expected string at " ++ k)
  | none => Except.ok none

/-- zod `z.boolean().optional()` field. -/
def zOptBool (v : JVal) (k : String) : Except String (Option Bool) :=
  match getField v k with
  | some (JVal.b x) => Except.ok (some x)
  | some _ => Except.error ("ZodError: expected boolean at " ++ k)
  | none => Except.ok none

/-- zod `z.number().optional().default(d)` field. -/
def zNumDefault (v : JVal) (k : String) (d : Int) : Except String Int :=
  match getField v k with
  | some (JVal.n x) => Except.ok x
  | some _ => Except.error ("ZodError: expected number at " ++ k)
  | none => Except.ok d

/-- zod `z.boolean().optional().default(d)` field. -/
def zBoolDefault (v : JVal) (k : String) (d : Bool) : Except String Bool :=
  match getField v k with
  | some (JVal.b x) => Except.ok x
  | some _ => Except.error ("ZodError: expected boolean at " ++ k)
  | none => Except.ok d

/-- zod `z.array(z.any()).optional()` field. -/
def zOptArray (v : JVal) (k : String) : Except String (Option (List JVal)) :=
  match getField v k with
  | some (JVal.arr xs) => Except.ok (some xs)
  | some _ => Except.error ("ZodError: expected array at " ++ k)
  | none => Except.ok none

/-- zod `z.record(z.any()).optional()` field. -/
def zOptRecord (v : JVal) (k : String) :
    Except String (Option (List (String × JVal))) :=
  match getField v k with
  | some (JVal.obj fs) => Except.ok (some fs)
  | some _ => Except.error ("ZodError: expected record at " ++ k)
  | none => Except.ok none

/-- zod `z.enum([...]).optional()` field. -/
def zOptEnum (v : JVal) (k : String) (allowed : List String) :
    Except String (Option String) :=
  match getField v k with
  | some (JVal.s st) =>
      if st ∈ allowed then Except.ok (some st)
      else Except.error ("ZodError: invalid enum value at " ++ k)
  | some _ => Except.error ("ZodError: expected string at " ++ k)
  | none => Except.ok none

/-- `ListInstancesSchema.parse`. -/
def parseListInstancesArgs (v : JVal) : Except String Unit := do
  let _ ← zObj v
  pure ()

/-- `ListWorkflowsSchema.parse`. -/
def parseListWorkflowsArgs (v : JVal) : Except String ListWorkflowsArgs := do
  let _ ← zObj v
  let inst ← zReqString v "instance"
  let active ← zOptBool v "active"
  let tags ← zOptString v "tags"
  let limit ← zNumDefault v "limit" 100
  pure ⟨inst, active, tags, limit⟩

/-- `SearchWorkflowsSchema.parse`. -/
def parseSearchWorkflowsArgs (v : JVal) : Except String SearchWorkflowsArgs := do
  let _ ← zObj v
  let inst ← zReqString v "instance"
  let query ← zReqString v "query"
  let active ← zOptBool v "active"
  pure ⟨inst, query, active⟩

/-- `GetWorkflowSchema.parse`. -/
def parseGetWorkflowArgs (v : JVal) : Except String GetWorkflowArgs := do
  let _ ← zObj v
  let inst ← zReqString v "instance"
  let wid ← zReqString v "workflowId"
  pure ⟨inst, wid⟩

/-- `CreateWorkflowSchema.parse`. -/
def parseCreateWorkflowArgs (v : JVal) : Except String CreateWorkflowArgs := do
  let _ ← zObj v
  let inst ← zReqString v "instance"
  let nm ← zReqString v "name"
  let nodes ← zOptArray v "nodes"
  let conns ← zOptRecord v "connections"
  let settings ← zOptRecord v "settings"
  let active ← zBoolDefault v "active" false
  pure ⟨inst, nm, nodes, conns, settings, active⟩

/-- `UpdateWorkflowSchema.parse`. -/
def parseUpdateWorkflowArgs (v : JVal) : Except String UpdateWorkflowArgs := do
  let _ ← zObj v
  let inst ← zReqString v "instance"
  let wid ← zReqString v "workflowId"
  let nm ← zOptString v "name"
  let nodes ← zOptArray v "nodes"
  let conns ← zOptRecord v "connections"
  let settings ← zOptRecord v "settings"
  let active ← zOptBool v "active"
  pure ⟨inst, wid, nm, nodes, conns, settings, active⟩

/-- `DeleteWorkflowSchema.parse`. -/
def parseDeleteWorkflowArgs (v : JVal) : Except String DeleteWorkflowArgs := do
  let _ ← zObj v
  let inst ← zReqString v "instance"
  let wid ← zReqString v "workflowId"
  pure ⟨inst, wid⟩

/-- `ToggleWorkflowSchema.parse`. -/
def parseToggleWorkflowArgs (v : JVal) : Except String ToggleWorkflowArgs := do
  let _ ← zObj v
  let inst ← zReqString v "instance"
  let wid ← zReqString v "workflowId"
  let active ← zReqBool v "active"
  pure ⟨inst, wid, active⟩

/-- `ExecuteWorkflowSchema.parse`. -/
def parseExecuteWorkflowArgs (v : JVal) : Except String ExecuteWorkflowArgs := do
  let _ ← zObj v
  let inst ← zReqString v "instance"
  let wid ← zReqString v "workflowId"
  pure ⟨inst, wid⟩

/-- `ListExecutionsSchema.parse`. -/
def parseListExecutionsArgs (v : JVal) : Except String ListExecutionsArgs := do
  let _ ← zObj v
  let inst ← zReqString v "instance"
  let wid ← zOptString v "workflowId"
  let status ← zOptEnum v "status" ["running", "success", "error", "waiting", "canceled"]
  let limit ← zNumDefault v "limit" 20
  pure ⟨inst, wid, status, limit⟩

/-- `GetExecutionSchema.parse`. -/
def parseGetExecutionArgs (v : JVal) : Except String GetExecutionArgs := do
  let _ ← zObj v
  let inst ← zReqString v "instance"
  let eid ← zReqString v "executionId"
  pure ⟨inst, eid⟩

/-- One projected workflow row of the `list-workflows` response
(`tools.ts` lines 340-346). -/
def decodeListWorkflowItem (w : JVal) : Except String JVal := do
  let idv ← jsGet w "id"
  let nv ← jsGet w "name"
  let av ← jsGet w "active"
  let uv ← jsGet w "updatedAt"
  let tags ← jsTagNames w
  pure (JVal.obj [("id", idv), ("name", nv), ("active", av),
    ("updatedAt", uv), ("tags", tags)])

/-- `N8NToolHandlers.listInstances` (`tools.ts` lines 311-329). -/
def listInstancesH (instances : List N8NInstance) : BackendM String :=
  pureB (
    if instances.isEmpty then
      "No N8N instances configured. Set N8N_INSTANCES or N8N_URL/N8N_API_KEY environment variables."
    else
      stringifyJson (JVal.obj [
        ("count", JVal.n instances.length),
        ("instances", JVal.arr (instances.map (fun i =>
          JVal.obj [("name", JVal.s i.name), ("url", JVal.s i.url)])))]))

/-- `N8NToolHandlers.listWorkflows` (`tools.ts` lines 332-357). -/
def listWorkflowsH (instances : List N8NInstance) (a : ListWorkflowsArgs) :
    BackendM String :=
  bindB (getClientB instances a.instanceName) (fun inst =>
  bindB (callB (listWorkflowsReq inst ⟨a.active, a.tags, some a.limit, none⟩)) (fun body =>
  liftB (do
    let v ← requireVal body
    let data ← asDataArray v
    let ws ← data.mapM decodeListWorkflowItem
    pure (stringifyJson (JVal.obj [
      ("instance", JVal.s a.instanceName),
      ("count", JVal.n ws.length),
      ("workflows", JVal.arr ws)])))))

/-- A workflow list item as consumed by the `search-workflows` filter: the
raw projected properties plus the `name` string the filter lowercases (a
non-string `name` makes `w.name.toLowerCase()` throw). -/
structure WItem where
  id : JVal
  name : String
  active : JVal
  updatedAt : JVal

/-- Decode one element of `result.data` for `search-workflows`. -/
def decodeWItem (w : JVal) : Except String WItem := do
  let nv ← jsGet w "name"
  match nv with
  | JVal.s st => do
      let idv ← jsGet w "id"
      let av ← jsGet w "active"
      let uv ← jsGet w "updatedAt"
      pure ⟨idv, st, av, uv⟩
  | _ => Except.error "TypeError: w.name.toLowerCase is not a function"

/-- The `search-workflows` filter predicate (`tools.ts` lines 367-370):
`w.name.toLowerCase().includes(args.query.toLowerCase())`. -/
def searchMatch (query : String) (w : WItem) : Bool :=
  containsChars (lowerChars w.name) (lowerChars query)

/-- The client-side filtering step of `search-workflows`. -/
def searchFilteredItems (query : String) (items : List WItem) : List WItem :=
  items.filter (searchMatch query)

/-- Projection of one filtered item into the response (`tools.ts` 372-377). -/
def wItemToJson (w : WItem) : JVal :=
  JVal.obj [("id", w.id), ("name", JVal.s w.name), ("active", w.active),
    ("updatedAt", w.updatedAt)]

/-- `N8NToolHandlers.searchWorkflows` (`tools.ts` lines 360-389): one
`listWorkflows` backend call with the fixed page size 200, then client-side
case-insensitive substring filtering on the workflow name. -/
def searchWorkflowsH (instances : List N8NInstance) (a : SearchWorkflowsArgs) :
    BackendM String :=
  bindB (getClientB instances a.instanceName) (fun inst =>
  bindB (callB (listWorkflowsReq inst ⟨a.active, none, some 200, none⟩)) (fun body =>
  liftB (do
    let v ← requireVal body
    let data ← asDataArray v
    let items ← data.mapM decodeWItem
    let filtered := searchFilteredItems a.query items
    pure (stringifyJson (JVal.obj [
      ("instance", JVal.s a.instanceName),
      ("query", JVal.s a.query),
      ("count", JVal.n filtered.length),
      ("workflows", JVal.arr (filtered.map wItemToJson))])))))

/-- `workflow.nodes?.length || 0` and `workflow.nodes?.map(...)` of the
`get-workflow` handler. -/
def jsNodesProjection (w : JVal) : Except String (Int × JVal) := do
  let nv ← jsGet w "nodes"
  match nv with
  | JVal.null => pure (0, JVal.null)
  | JVal.arr xs => do
      let mapped ← xs.mapM (fun nd => do
        let nn ← jsGet nd "name"
        let nt ← jsGet nd "type"
        pure (JVal.obj [("name", nn), ("type", nt)]))
      pure ((xs.length : Int), JVal.arr mapped)
  | _ => Except.error "TypeError: workflow.nodes.map is not a function"

/-- `N8NToolHandlers.getWorkflow` (`tools.ts` lines 392-418). -/
def getWorkflowH (instances : List N8NInstance) (a : GetWorkflowArgs) :
    BackendM String :=
  bindB (getClientB instances a.instanceName) (fun inst =>
  bindB (callB (getWorkflowReq inst a.workflowId)) (fun body =>
  liftB (do
    let w ← requireVal body
    let idv ← jsGet w "id"
    let nv ← jsGet w "name"
    let av ← jsGet w "active"
    let cv ← jsGet w "createdAt"
    let uv ← jsGet w "updatedAt"
    let tags ← jsTagNames w
    let nodes ← jsNodesProjection w
    let conns ← jsGet w "connections"
    let settings ← jsGet w "settings"
    pure (stringifyJson (JVal.obj [
      ("instance", JVal.s a.instanceName),
      ("workflow", JVal.obj [
        ("id", idv), ("name", nv), ("active", av),
        ("createdAt", cv), ("updatedAt", uv), ("tags", tags),
        ("nodeCount", JVal.n nodes.1), ("nodes", nodes.2),
        ("connections", conns), ("settings", settings)])])))))

/-- Optional JSON object field: present only when the option is defined
(`JSON.stringify` drops `undefined`-valued properties). -/
def optField (k : String) (o : Option JVal) : List (String × JVal) :=
  match o with
  | some v => [(k, v)]
  | none => []

/-- The request body sent by `create-workflow` (`tools.ts` lines 423-429):
`name` and `active` always present, the other fields only when supplied. -/
def buildCreateBody (a : CreateWorkflowArgs) : JVal :=
  JVal.obj ([("name", JVal.s a.name)]
    ++ optField "nodes" (a.nodes.map JVal.arr)
    ++ optField "connections" (a.connections.map JVal.obj)
    ++ optField "settings" (a.settings.map JVal.obj)
    ++ [("active", JVal.b a.active)])

/-- `N8NToolHandlers.createWorkflow` (`tools.ts` lines 421-445). -/
def createWorkflowH (instances : List N8NInstance) (a : CreateWorkflowArgs) :
    BackendM String :=
  bindB (getClientB instances a.instanceName) (fun inst =>
  bindB (callB (createWorkflowReq inst (buildCreateBody a))) (fun body =>
  liftB (do
    let w ← requireVal body
    let idv ← jsGet w "id"
    let nv ← jsGet w "name"
    let av ← jsGet w "active"
    let cv ← jsGet w "createdAt"
    pure (stringifyJson (JVal.obj [
      ("instance", JVal.s a.instanceName),
      ("message", JVal.s "Workflow created successfully"),
      ("workflow", JVal.obj [("id", idv), ("name", nv), ("active", av),
        ("createdAt", cv)])])))))

/-- The `updateData` object built by `update-workflow` (`tools.ts` lines
451-456): each of the five optional fields is added exactly when the
corresponding argument is defined, in source order. -/
def buildUpdateData (a : UpdateWorkflowArgs) : List (String × JVal) :=
  (match a.name with
   | some v => [("name", JVal.s v)]
   | none => []) ++
  (match a.nodes with
   | some v => [("nodes", JVal.arr v)]
   | none => []) ++
  (match a.connections with
   | some v => [("connections", JVal.obj v)]
   | none => []) ++
  (match a.settings with
   | some v => [("settings", JVal.obj v)]
   | none => []) ++
  (match a.active with
   | some v => [("active", JVal.b v)]
   | none => [])

/-- `N8NToolHandlers.updateWorkflow` (`tools.ts` lines 448-474). -/
def updateWorkflowH (instances : List N8NInstance) (a : UpdateWorkflowArgs) :
    BackendM String :=
  bindB (getClientB instances a.instanceName) (fun inst =>
  bindB (callB (updateWorkflowReq inst a.workflowId (JVal.obj (buildUpdateData a)))) (fun body =>
  liftB (do
    let w ← requireVal body
    let idv ← jsGet w "id"
    let nv ← jsGet w "name"
    let av ← jsGet w "active"
    let uv ← jsGet w "updatedAt"
    pure (stringifyJson (JVal.obj [
      ("instance", JVal.s a.instanceName),
      ("message", JVal.s "Workflow updated successfully"),
      ("workflow", JVal.obj [("id", idv), ("name", nv), ("active", av),
        ("updatedAt", uv)])])))))

/-- `N8NToolHandlers.deleteWorkflow` (`tools.ts` lines 477-489). -/
def deleteWorkflowH (instances : List N8NInstance) (a : DeleteWorkflowArgs) :
    BackendM String :=
  bindB (getClientB instances a.instanceName) (fun inst =>
  bindB (callB (deleteWorkflowReq inst a.workflowId)) (fun _ =>
  pureB (stringifyJson (JVal.obj [
    ("instance", JVal.s a.instanceName),
    ("message", JVal.s ("Workflow " ++ a.workflowId ++ " deleted successfully"))]))))

/-- `N8NToolHandlers.toggleWorkflow` (`tools.ts` lines 492-512): the
required boolean selects between the dedicated activate and deactivate
action requests; the generic update operation is never issued. -/
def toggleWorkflowH (instances : List N8NInstance) (a : ToggleWorkflowArgs) :
    BackendM String :=
  bindB (getClientB instances a.instanceName) (fun inst =>
  bindB (callB (if a.active then activateWorkflowReq inst a.workflowId
                else deactivateWorkflowReq inst a.workflowId)) (fun body =>
  liftB (do
    let w ← requireVal body
    let idv ← jsGet w "id"
    let nv ← jsGet w "name"
    let av ← jsGet w "active"
    pure (stringifyJson (JVal.obj [
      ("instance", JVal.s a.instanceName),
      ("message", JVal.s ("Workflow "
        ++ (if a.active then "activated" else "deactivated")
        ++ " successfully")),
      ("workflow", JVal.obj [("id", idv), ("name", nv), ("active", av)])])))))

/-- `N8NToolHandlers.executeWorkflow` (`tools.ts` lines 515-529). -/
def executeWorkflowH (instances : List N8NInstance) (a : ExecuteWorkflowArgs) :
    BackendM String :=
  bindB (getClientB instances a.instanceName) (fun inst =>
  bindB (callB (executeWorkflowReq inst a.workflowId)) (fun body =>
  liftB (do
    let v ← requireVal body
    let d ← jsGet v "data"
    let eid ← jsGet d "executionId"
    pure (stringifyJson (JVal.obj [
      ("instance", JVal.s a.instanceName),
      ("message", JVal.s "Workflow execution started"),
      ("executionId", eid),
      ("workflowId", JVal.s a.workflowId)])))))

/-- One projected execution row of the `list-executions` response
(`tools.ts` lines 540-548). -/
def decodeExecutionItem (e : JVal) : Except String JVal := do
  let idv ← jsGet e "id"
  let wid ← jsGet e "workflowId"
  let wname ← jsGet e "workflowName"
  let st ← jsGet e "status"
  let sa ← jsGet e "startedAt"
  let sp ← jsGet e "stoppedAt"
  let md ← jsGet e "mode"
  pure (JVal.obj [("id", idv), ("workflowId", wid), ("workflowName", wname),
    ("status", st), ("startedAt", sa), ("stoppedAt", sp), ("mode", md)])

/-- `N8NToolHandlers.listExecutions` (`tools.ts` lines 532-559). -/
def listExecutionsH (instances : List N8NInstance) (a : ListExecutionsArgs) :
    BackendM String :=
  bindB (getClientB instances a.instanceName) (fun inst =>
  bindB (callB (listExecutionsReq inst ⟨a.workflowId, a.status, some a.limit, none⟩)) (fun body =>
  liftB (do
    let v ← requireVal body
    let data ← asDataArray v
    let es ← data.mapM decodeExecutionItem
    pure (stringifyJson (JVal.obj [
      ("instance", JVal.s a.instanceName),
      ("count", JVal.n es.length),
      ("executions", JVal.arr es)])))))

/-- `N8NToolHandlers.getExecution` (`tools.ts` lines 562-586). -/
def getExecutionH (instances : List N8NInstance) (a : GetExecutionArgs) :
    BackendM String :=
  bindB (getClientB instances a.instanceName) (fun inst =>
  bindB (callB (getExecutionReq inst a.executionId)) (fun body =>
  liftB (do
    let e ← requireVal body
    let idv ← jsGet e "id"
    let wid ← jsGet e "workflowId"
    let wname ← jsGet e "workflowName"
    let st ← jsGet e "status"
    let md ← jsGet e "mode"
    let sa ← jsGet e "startedAt"
    let sp ← jsGet e "stoppedAt"
    let fin ← jsGet e "finished"
    let ro ← jsGet e "retryOf"
    let rs ← jsGet e "retrySuccessId"
    let dv ← jsGet e "data"
    pure (stringifyJson (JVal.obj [
      ("instance", JVal.s a.instanceName),
      ("execution", JVal.obj [
        ("id", idv), ("workflowId", wid), ("workflowName", wname),
        ("status", st), ("mode", md), ("startedAt", sa), ("stoppedAt", sp),
        ("finished", fin), ("retryOf", ro), ("retrySuccessId", rs),
        ("data", dv)])])))))

/-- The `switch` of the `CallToolRequestSchema` handler (`index.ts` lines
76-124): schema validation followed by the tool handler; an unrecognized
tool name throws `Unknown tool: <name>`. -/
def dispatchTool (instances : List N8NInstance) (name : String) (args : JVal) :
    BackendM String :=
  match name with
  | "n8n_list_instances" =>
      bindB (liftB (parseListInstancesArgs args)) (fun _ => listInstancesH instances)
  | "n8n_list_workflows" =>
      bindB (liftB (parseListWorkflowsArgs args)) (listWorkflowsH instances)
  | "n8n_search_workflows" =>
      bindB (liftB (parseSearchWorkflowsArgs args)) (searchWorkflowsH instances)
  | "n8n_get_workflow" =>
      bindB (liftB (parseGetWorkflowArgs args)) (getWorkflowH instances)
  | "n8n_create_workflow" =>
      bindB (liftB (parseCreateWorkflowArgs args)) (createWorkflowH instances)
  | "n8n_update_workflow" =>
      bindB (liftB (parseUpdateWorkflowArgs args)) (updateWorkflowH instances)
  | "n8n_delete_workflow" =>
      bindB (liftB (parseDeleteWorkflowArgs args)) (deleteWorkflowH instances)
  | "n8n_toggle_workflow" =>
      bindB (liftB (parseToggleWorkflowArgs args)) (toggleWorkflowH instances)
  | "n8n_execute_workflow" =>
      bindB (liftB (parseExecuteWorkflowArgs args)) (executeWorkflowH instances)
  | "n8n_list_executions" =>
      bindB (liftB (parseListExecutionsArgs args)) (listExecutionsH instances)
  | "n8n_get_execution" =>
      bindB (liftB (parseGetExecutionArgs args)) (getExecutionH instances)
  | _ => liftB (Except.error ("Unknown tool: " ++ name))

/-- The result envelope of a tool call (`content[0].text` and `isError`). -/
structure CallToolResult where
  text : String
  isError : Bool
deriving Repr, DecidableEq

/-- The serialized error envelope `JSON.stringify({ error: message })`. -/
def errorEnvelopeText (message : String) : String :=
  stringifyJson (JVal.obj [("error", JVal.s message)])

/-- The `CallToolRequestSchema` handler (`index.ts` lines 70-146): runs the
dispatched computation under `try`; a successful result is returned with no
error flag, any thrown error is converted into the `{ error: message }`
envelope with the error flag set. -/
def handleCallTool (instances : List N8NInstance) (be : Backend)
    (name : String) (args : JVal) : CallToolResult :=
  match (dispatchTool instances name args be).2 with
  | Except.ok result => ⟨result, false⟩
  | Except.error e => ⟨errorEnvelopeText e, true⟩

/-- Environment with both a valid `N8N_INSTANCES` JSON entry and a complete
numbered `N8N_INSTANCE_1_*` triple. -/
def envBothSources : Env :=
  ⟨some (JsonOutcome.arr [⟨some "a", some "http://a", some "k"⟩]),
   fun i => if i = 1 then some "b" else none,
   fun i => if i = 1 then some "http://b" else none,
   fun i => if i = 1 then some "k2" else none,
   none, none, none⟩

/-- Environment configuring only the legacy fallback instance, with a URL
ending in two slashes. -/
def envDoubleSlash : Env :=
  ⟨none, fun _ => none, fun _ => none, fun _ => none,
   some "https://x//", some "k", none⟩

/-- A backend response whose error body parses and carries message `boom`. -/
def respBoom : HttpResponse :=
  ⟨500, "Internal Server Error", some (JVal.obj [("message", JVal.s "boom")])⟩

/-- A trivial backend oracle answering every request with `200 OK` and an
empty JSON object body. -/
def beTrivial : Backend :=
  fun _ => ⟨200, "OK", some (JVal.obj [])⟩

/-- C2, counterexample: with both a valid `N8N_INSTANCES` JSON entry and a
complete numbered `N8N_INSTANCE_1_*` triple configured, `loadInstances`
returns the instances of both sources; the JSON source does not shadow the
numbered source, contradicting the claimed mutual exclusivity. -/
theorem config_sources_not_exclusive_cex :
    loadInstances envBothSources =
      [⟨"a", "http://a", "k"⟩, ⟨"b", "http://b", "k2"⟩] ∧
    loadInstances envBothSources ≠ [⟨"a", "http://a", "k"⟩] ∧
    jsonInstances envBothSources = [⟨"a", "http://a", "k"⟩] := by
  refine ⟨by decide, by decide, by decide⟩

/-- C2, amended: the JSON source and the numbered source are both consulted
and their instances concatenated (JSON first); only the legacy
single-instance fallback is governed by precedence, being consulted exactly
when the first two sources together produced zero instances. -/
theorem config_sources_precedence_amended (e : Env) :
    (jsonInstances e ++ numberedInstances e ≠ [] →
      loadInstances e = jsonInstances e ++ numberedInstances e) ∧
    (jsonInstances e ++ numberedInstances e = [] →
      loadInstances e = fallbackInstances e) := by
  constructor
  · intro h
    unfold loadInstances
    rcases hl : jsonInstances e ++ numberedInstances e with _ | ⟨x, xs⟩
    · exact absurd hl h
    · simp
  · intro h
    unfold loadInstances
    rw [h]
    simp

/-- C2, witness: the amended precedence theorem evaluated on the
two-source environment. -/
theorem config_sources_precedence_witness :
    loadInstances envBothSources =
      jsonInstances envBothSources ++ numberedInstances envBothSources :=
  (config_sources_precedence_amended envBothSources).1 (by decide)

lemma revStartsSlash_strip (l : List Char) (h : revStartsTwoSlash l = false) :
    revStartsSlash (stripLastSlashRev l) = false := by
  cases l with
  | nil => rfl
  | cons c t =>
      unfold stripLastSlashRev
      by_cases hc : c = '/'
      · simp only [hc, if_pos rfl]
        cases t with
        | nil => rfl
        | cons c2 t2 =>
            simp [revStartsTwoSlash, hc] at h
            simp [revStartsSlash, h]
      · simp [hc, revStartsSlash]

lemma endsWithSlash_stripTrailingSlash (s : String)
    (h : endsWithTwoSlashes s = false) :
    endsWithSlash (stripTrailingSlash s) = false := by
  unfold endsWithSlash stripTrailingSlash endsWithTwoSlashes at *
  rw [show (String.mk (stripLastSlashRev s.toList.reverse).reverse).toList
        = (stripLastSlashRev s.toList.reverse).reverse from rfl]
  rw [List.reverse_reverse]
  exact revStartsSlash_strip _ h

lemma mem_loadInstances_url (e : Env) (inst : N8NInstance)
    (h : inst ∈ loadInstances e) :
    ∃ raw ∈ envConfiguredUrls e, inst.url = stripTrailingSlash raw := by
  simp only [loadInstances] at h
  split at h
  · -- fallback branch
    unfold fallbackInstances at h
    split at h
    · rename_i u k hu hk
      simp at h
      refine ⟨u, ?_, by rw [h]⟩
      unfold envConfiguredUrls
      rw [hu]
      exact List.mem_append_right _ (List.mem_singleton.mpr rfl)
    · simp at h
  · rcases List.mem_append.mp h with ha | ha
    · unfold jsonInstances at ha
      split at ha
      · rename_i entries hjson
        rcases List.mem_filterMap.mp ha with ⟨r, hrm, hf⟩
        split at hf
        · rename_i nm u k hn hu hk
          obtain hinst := Option.some.inj hf
          refine ⟨u, ?_, by rw [← hinst]⟩
          unfold envConfiguredUrls
          rw [hjson]
          exact List.mem_append_left _
            (List.mem_append_left _ (List.mem_filterMap.mpr ⟨r, hrm, hu⟩))
        · simp at hf
      · simp at ha
    · unfold numberedInstances at ha
      rcases List.mem_filterMap.mp ha with ⟨i, him, hf⟩
      split at hf
      · rename_i nm u k hn hu hk
        obtain hinst := Option.some.inj hf
        refine ⟨u, ?_, by rw [← hinst]⟩
        unfold envConfiguredUrls
        exact List.mem_append_left _
          (List.mem_append_right _ (List.mem_filterMap.mpr ⟨i, him, hu⟩))
      · simp at hf

/-- C7, counterexample: a legacy-source URL ending in two slashes has only
one trailing slash removed by `loadInstances`, so the stored url still ends
with a slash. -/
theorem trailing_slash_not_stripped_cex :
    loadInstances envDoubleSlash = [⟨"default", "https://x/", "k"⟩] ∧
    endsWithSlash "https://x/" = true := ⟨by decide, by decide⟩

/-- C7, amended: every instance record produced by `loadInstances` stores
as url one of the URL values configured in the environment with at most one
trailing slash removed; consequently the stored url does not end with a
slash whenever that configured URL did not end with two or more slashes. -/
theorem trailing_slash_single_strip (e : Env) (inst : N8NInstance)
    (h : inst ∈ loadInstances e) :
    ∃ raw ∈ envConfiguredUrls e, inst.url = stripTrailingSlash raw ∧
      (endsWithTwoSlashes raw = false → endsWithSlash inst.url = false) := by
  obtain ⟨raw, hm, hr⟩ := mem_loadInstances_url e inst h
  exact ⟨raw, hm, hr, fun h2 => by
    rw [hr]
    exact endsWithSlash_stripTrailingSlash raw h2⟩

/-- C7, witness: the amended theorem evaluated on the instance produced
from the double-slash environment. -/
theorem trailing_slash_single_strip_witness :
    ∃ raw ∈ envConfiguredUrls envDoubleSlash,
      (⟨"default", "https://x/", "k"⟩ : N8NInstance).url
        = stripTrailingSlash raw ∧
      (endsWithTwoSlashes raw = false →
        endsWithSlash (⟨"default", "https://x/", "k"⟩ : N8NInstance).url = false) :=
  trailing_slash_single_strip envDoubleSlash
    ⟨"default", "https://x/", "k"⟩ (by decide)

/-- C8: `getInstanceByName` matches case-insensitively and exactly,
returning the first instance in registration order whose name equals the
query up to letter case (it agrees with the specification rendering
`firstCaseInsensitiveMatch`), returns `none` exactly when no instance
matches, and resolves both `prod` and `PROD` against a registered `Prod`
to that same record. -/
theorem resolve_case_insensitive_first_match (l : List N8NInstance) (q : String) :
    getInstanceByName l q = firstCaseInsensitiveMatch l q ∧
    (getInstanceByName l q = none ↔ ∀ i ∈ l, lowerStr i.name ≠ lowerStr q) ∧
    getInstanceByName [⟨"Prod", "u", "k"⟩] "prod" = some ⟨"Prod", "u", "k"⟩ ∧
    getInstanceByName [⟨"Prod", "u", "k"⟩] "PROD" = some ⟨"Prod", "u", "k"⟩ := by
  refine ⟨?_, ?_, by decide, by decide⟩
  · induction l with
    | nil => rfl
    | cons i t ih =>
        by_cases hc : lowerStr i.name = lowerStr q
        · simp [getInstanceByName, firstCaseInsensitiveMatch, List.find?, hc]
        · simp only [getInstanceByName, firstCaseInsensitiveMatch, List.find?] at *
          rw [show (lowerStr i.name == lowerStr q) = false from
            beq_eq_false_iff_ne.mpr hc, if_neg hc]
          exact ih
  · simp [getInstanceByName, List.find?_eq_none]

/-- C8, witness: the not-found characterization evaluated on the empty
registry. -/
theorem resolve_case_insensitive_witness :
    getInstanceByName [] "x" = none :=
  (resolve_case_insensitive_first_match [] "x").2.1.mpr (by simp)

lemma envTruthy_some_ne {o : Option String} {v : String}
    (h : envTruthy o = some v) : v ≠ "" := by
  rcases o with _ | st
  · simp [envTruthy] at h
  · simp only [envTruthy] at h
    by_cases hs : st = ""
    · simp [hs] at h
    · rw [if_neg hs] at h
      cases h
      exact hs

lemma loadInstances_name_ne_empty (e : Env) (inst : N8NInstance)
    (h : inst ∈ loadInstances e) : inst.name ≠ "" := by
  simp only [loadInstances] at h
  split at h
  · unfold fallbackInstances at h
    split at h
    · simp at h
      rw [h]
      split
      · exact envTruthy_some_ne (by assumption)
      · simp
    · simp at h
  · rcases List.mem_append.mp h with ha | ha
    · unfold jsonInstances at ha
      split at ha
      · rcases List.mem_filterMap.mp ha with ⟨r, _, hf⟩
        split at hf
        · obtain hinst := Option.some.inj hf
          rw [← hinst]
          exact envTruthy_some_ne (by assumption)
        · simp at hf
      · simp at ha
    · unfold numberedInstances at ha
      rcases List.mem_filterMap.mp ha with ⟨i, _, hf⟩
      split at hf
      · obtain hinst := Option.some.inj hf
        rw [← hinst]
        exact envTruthy_some_ne (by assumption)
      · simp at hf

lemma joinComma_ne_empty (x : String) (xs : List String) (hx : x ≠ "") :
    joinComma (x :: xs) ≠ "" := by
  cases xs with
  | nil => simpa [joinComma] using hx
  | cons y ys =>
      intro h
      have h2 : (x ++ ", " ++ joinComma (y :: ys)).length = 0 := by
        have hdef : joinComma (x :: y :: ys) = x ++ ", " ++ joinComma (y :: ys) := rfl
        rw [← hdef, h]
        rfl
      rw [String.length_append, String.length_append] at h2
      have h3 : (", ").length = 2 := rfl
      omega

/-- C9: when the requested instance name has no case-insensitive match and
every configured name is non-empty (as `loadInstances_name_ne_empty` shows
for every loaded registry), `getClientE` produces an error that names the
requested instance and lists all configured instance names, or the literal
text `none` when zero instances are configured. -/
theorem instance_not_found_message (l : List N8NInstance) (q : String)
    (hnf : getInstanceByName l q = none)
    (hne : ∀ i ∈ l, i.name ≠ "") :
    getClientE l q = Except.error
      ("Instance \"" ++ q ++ "\" not found. Available instances: "
        ++ (if l = [] then "none" else joinComma (l.map (fun i => i.name)))) := by
  unfold getClientE
  rw [hnf]
  cases l with
  | nil => rfl
  | cons i t =>
      have hi : i.name ≠ "" := hne i (List.mem_cons_self i t)
      have hj : joinComma (i.name :: t.map (fun x => x.name)) ≠ "" :=
        joinComma_ne_empty _ _ hi
      simp [hj]

/-- C9, witness: the not-found error message evaluated on a one-instance
registry and an unknown name. -/
theorem instance_not_found_message_witness :
    getClientE [⟨"prod", "u", "k"⟩] "dev" = Except.error
      ("Instance \"" ++ "dev" ++ "\" not found. Available instances: "
        ++ (if ([⟨"prod", "u", "k"⟩] : List N8NInstance) = [] then "none"
            else joinComma (([⟨"prod", "u", "k"⟩] : List N8NInstance).map (fun i => i.name)))) :=
  instance_not_found_message [⟨"prod", "u", "k"⟩] "dev" (by decide) (by decide)

/-- C6, counterexample: on a 500 response whose body parses with message
`boom`, `request` raises the text `N8N API Error: boom`, which is neither
exactly the backend-supplied message nor exactly the generic status line,
contradicting the claimed exact message text. -/
theorem backend_error_prefix_cex :
    n8nRequest respBoom = Except.error "N8N API Error: boom" ∧
    ("N8N API Error: boom" : String) ≠ "boom" ∧
    ("N8N API Error: boom" : String)
      ≠ httpGenericText 500 "Internal Server Error" :=
  ⟨rfl, by decide, by decide⟩

/-- C6, amended: on a non-success status `request` raises an error reading
`N8N API Error: ` followed by the backend-supplied message value when the
error body parses with a truthy `message` property and by the generic
`HTTP <status>: <statusText>` text otherwise; on status 204 it returns an
empty result without parsing; on a parseable success body it returns the
parsed JSON. -/
theorem backend_error_text_amended (r : HttpResponse) :
    (r.status = 204 → n8nRequest r = Except.ok none) ∧
    (r.status < 200 ∨ 299 < r.status →
      n8nRequest r = Except.error ("N8N API Error: " ++ backendErrorText r)) ∧
    (200 ≤ r.status → r.status ≤ 299 → r.status ≠ 204 →
      ∀ v, r.body = some v → n8nRequest r = Except.ok (some v)) := by
  refine ⟨?_, ?_, ?_⟩
  · intro h
    simp [n8nRequest, h]
  · intro h
    have hcond : ¬(200 ≤ r.status ∧ r.status ≤ 299) := by omega
    unfold n8nRequest backendErrorText
    rw [if_neg hcond]
  · intro h1 h2 h3 v hv
    unfold n8nRequest
    rw [if_pos ⟨h1, h2⟩, if_neg h3, hv]

/-- C6, witness: the 204 clause of the amended theorem evaluated on a
concrete response. -/
theorem backend_error_text_witness :
    n8nRequest ⟨204, "No Content", none⟩ = Except.ok none :=
  (backend_error_text_amended ⟨204, "No Content", none⟩).1 rfl

/-- C10: in `listWorkflows` the `active` query parameter is included
exactly when the option is defined, including `active = false`, while
`limit` and `tags` are tested for truthiness: `limit` is present exactly
when defined and non-zero, `tags` exactly when defined and non-empty. -/
theorem list_workflows_param_truthiness (o : ListWorkflowsOptions) :
    ((∃ v, ("active", v) ∈ listWorkflowsParams o) ↔ o.active.isSome = true) ∧
    (∀ b, o.active = some b →
      ("active", jsBoolString b) ∈ listWorkflowsParams o) ∧
    ((∃ v, ("limit", v) ∈ listWorkflowsParams o) ↔
      ∃ n, o.limit = some n ∧ n ≠ 0) ∧
    ((∃ v, ("tags", v) ∈ listWorkflowsParams o) ↔
      ∃ t, o.tags = some t ∧ t ≠ "") := by
  obtain ⟨oa, ot, ol, oc⟩ := o
  cases oa <;> cases ot <;> cases ol <;> cases oc <;>
    simp [listWorkflowsParams]

/-- C10, witness: the `active = false` inclusion evaluated on options with
falsy `tags` and `limit`. -/
theorem list_workflows_param_truthiness_witness :
    ("active", jsBoolString false)
      ∈ listWorkflowsParams ⟨some false, some "", some 0, none⟩ :=
  (list_workflows_param_truthiness ⟨some false, some "", some 0, none⟩).2.1
    false rfl

/-- C5: the update-workflow request body contains exactly those optional
fields (`name`, `nodes`, `connections`, `settings`, `active`) that are
present in the tool arguments and no others; in particular a call supplying
only a new name sends a body holding only the `name` field. -/
theorem update_forwards_only_present_fields (a : UpdateWorkflowArgs) :
    ((∃ v, ("name", v) ∈ buildUpdateData a) ↔ a.name.isSome = true) ∧
    ((∃ v, ("nodes", v) ∈ buildUpdateData a) ↔ a.nodes.isSome = true) ∧
    ((∃ v, ("connections", v) ∈ buildUpdateData a) ↔
      a.connections.isSome = true) ∧
    ((∃ v, ("settings", v) ∈ buildUpdateData a) ↔ a.settings.isSome = true) ∧
    ((∃ v, ("active", v) ∈ buildUpdateData a) ↔ a.active.isSome = true) ∧
    (∀ k v, (k, v) ∈ buildUpdateData a →
      k = "name" ∨ k = "nodes" ∨ k = "connections" ∨ k = "settings"
        ∨ k = "active") ∧
    (∀ nm, a.name = some nm → a.nodes = none → a.connections = none →
      a.settings = none → a.active = none →
      buildUpdateData a = [("name", JVal.s nm)]) := by
  obtain ⟨i, w, nm, no, co, se, ac⟩ := a
  cases nm <;> cases no <;> cases co <;> cases se <;> cases ac <;>
    simp [buildUpdateData] <;> tauto

/-- C5, witness: the name-only clause evaluated on concrete arguments. -/
theorem update_forwards_only_present_fields_witness :
    buildUpdateData ⟨"prod", "w1", some "x", none, none, none, none⟩
      = [("name", JVal.s "x")] :=
  (update_forwards_only_present_fields
    ⟨"prod", "w1", some "x", none, none, none, none⟩).2.2.2.2.2.2
    "x" rfl rfl rfl rfl rfl

lemma getClientE_ok {l : List N8NInstance} {n : String} {inst : N8NInstance}
    (h : getInstanceByName l n = some inst) :
    getClientE l n = Except.ok inst := by
  unfold getClientE
  rw [h]

lemma toggle_trace (l : List N8NInstance) (a : ToggleWorkflowArgs)
    (be : Backend) :
    (toggleWorkflowH l a be).1 =
      match getInstanceByName l a.instanceName with
      | some inst =>
          [if a.active then activateWorkflowReq inst a.workflowId
           else deactivateWorkflowReq inst a.workflowId]
      | none => [] := by
  rcases hg : getInstanceByName l a.instanceName with _ | inst
  · unfold toggleWorkflowH bindB getClientB liftB getClientE
    rw [hg]
  · have hc := getClientE_ok hg
    unfold toggleWorkflowH bindB getClientB liftB callB
    rw [hc]
    rcases hn : n8nRequest (be (if a.active then activateWorkflowReq inst a.workflowId
        else deactivateWorkflowReq inst a.workflowId)) with e | v <;> simp [hn]

/-- C3: a toggle-workflow call issues exactly the dedicated activate
action request when `active` is true and exactly the dedicated deactivate
action request when `active` is false, and never issues the generic
workflow-update request. -/
theorem toggle_uses_dedicated_action_paths (l : List N8NInstance)
    (a : ToggleWorkflowArgs) (be : Backend) :
    (∀ inst, getInstanceByName l a.instanceName = some inst →
      (toggleWorkflowH l a be).1 =
        [if a.active then activateWorkflowReq inst a.workflowId
         else deactivateWorkflowReq inst a.workflowId]) ∧
    (∀ r ∈ (toggleWorkflowH l a be).1,
      r.method = "POST" ∧
      ∀ inst2 wid body, r ≠ updateWorkflowReq inst2 wid body) := by
  have htr := toggle_trace l a be
  constructor
  · intro inst h
    rw [htr, h]
  · intro r hr
    rw [htr] at hr
    rcases hg : getInstanceByName l a.instanceName with _ | inst <;> rw [hg] at hr
    · simp at hr
    · simp only [List.mem_singleton] at hr
      subst hr
      cases a.active <;>
        simp [activateWorkflowReq, deactivateWorkflowReq, updateWorkflowReq]

/-- C3, witness: the trace equation evaluated on a one-instance registry
with `active = true`. -/
theorem toggle_uses_dedicated_action_paths_witness :
    (toggleWorkflowH [⟨"a", "u", "k"⟩] ⟨"a", "w1", true⟩ beTrivial).1 =
      [if true then activateWorkflowReq ⟨"a", "u", "k"⟩ "w1"
       else deactivateWorkflowReq ⟨"a", "u", "k"⟩ "w1"] :=
  (toggle_uses_dedicated_action_paths [⟨"a", "u", "k"⟩] ⟨"a", "w1", true⟩
    beTrivial).1 ⟨"a", "u", "k"⟩ (by decide)

lemma search_trace (l : List N8NInstance) (a : SearchWorkflowsArgs)
    (be : Backend) :
    (searchWorkflowsH l a be).1 =
      match getInstanceByName l a.instanceName with
      | some inst => [listWorkflowsReq inst ⟨a.active, none, some 200, none⟩]
      | none => [] := by
  rcases hg : getInstanceByName l a.instanceName with _ | inst
  · unfold searchWorkflowsH bindB getClientB liftB getClientE
    rw [hg]
  · have hc := getClientE_ok hg
    unfold searchWorkflowsH bindB getClientB liftB callB
    rw [hc]
    rcases hn : n8nRequest (be (listWorkflowsReq inst
        ⟨a.active, none, some 200, none⟩)) with e | v <;> simp [hn]

/-- C4: search-workflows issues a single list-workflows backend call with
the fixed page size 200 and returns exactly those returned workflows whose
name contains the query as a case-insensitive substring; the result never
exceeds the returned list, hence never exceeds 200 items when the backend
honors the requested page size. -/
theorem search_filters_client_side (l : List N8NInstance)
    (a : SearchWorkflowsArgs) (be : Backend) :
    (∀ inst, getInstanceByName l a.instanceName = some inst →
      (searchWorkflowsH l a be).1 =
        [listWorkflowsReq inst ⟨a.active, none, some 200, none⟩]) ∧
    (∀ (items : List WItem) (w : WItem),
      w ∈ searchFilteredItems a.query items ↔
        w ∈ items ∧
          containsChars (lowerChars w.name) (lowerChars a.query) = true) ∧
    (∀ items : List WItem,
      (searchFilteredItems a.query items).length ≤ items.length) ∧
    (∀ items : List WItem, items.length ≤ 200 →
      (searchFilteredItems a.query items).length ≤ 200) := by
  refine ⟨?_, ?_, ?_, ?_⟩
  · intro inst h
    rw [search_trace l a be, h]
  · intro items w
    simp [searchFilteredItems, searchMatch, List.mem_filter]
  · intro items
    exact List.length_filter_le _ _
  · intro items h
    exact le_trans (List.length_filter_le _ _) h

/-- C4, witness: the trace equation evaluated on a one-instance
registry. -/
theorem search_filters_client_side_witness :
    (searchWorkflowsH [⟨"a", "u", "k"⟩] ⟨"a", "q", none⟩ beTrivial).1 =
      [listWorkflowsReq ⟨"a", "u", "k"⟩ ⟨none, none, some 200, none⟩] :=
  (search_filters_client_side [⟨"a", "u", "k"⟩] ⟨"a", "q", none⟩
    beTrivial).1 ⟨"a", "u", "k"⟩ (by decide)

/-- C1: every dispatched tool call returns exactly one result envelope:
either a success payload with the error flag false, or the serialized
object holding a single `error` field with the error flag true; no handler
outcome (schema failure, instance-not-found, backend error, or unknown
tool) escapes the dispatch boundary. -/
theorem tool_call_always_enveloped (l : List N8NInstance) (be : Backend)
    (name : String) (args : JVal) :
    (∃ result, handleCallTool l be name args = ⟨result, false⟩) ∨
    (∃ message,
      handleCallTool l be name args = ⟨errorEnvelopeText message, true⟩) := by
  unfold handleCallTool
  cases h : (dispatchTool l name args be).2 with
  | ok s => exact Or.inl ⟨s, rfl⟩
  | error e => exact Or.inr ⟨e, rfl⟩
